import Mathlib

/-!
# Web-File-Share: a verification development of `server.js`

The server keeps every uploaded file in one flat folder (`uploads`), lists the
folder with expiry metadata, serves files for download and sweeps files older
than two hours.

## Modelling conventions

* The storage folder is a list of stored files in enumeration order (the order
  `fs.readdir` reports). A real folder never holds two entries of one name;
  that invariant is `Dir.WellFormed`, assumed where a statement needs it and
  shown to be preserved by every operation.
* Time stamps (`Date.now()`, `stats.mtimeMs`) are whole epoch milliseconds,
  `Int`.
* File content is a list of bytes; the size of a file is the length of its
  content.
* The callbacks of one handler run one after the other, in enumeration order.
  In the program they are asynchronous, but the callbacks of different entries
  touch different names, so their order does not change the folder.
* I/O failures are environment input: `Faults` says, for one run of a handler,
  whether `readdir` fails and on which names `stat` and `unlink` fail.
* Console output is recorded as structured entries, one constructor per
  `console.log` / `console.error` call site of the program.
-/

set_option autoImplicit false

namespace WebFileShare

/-! ## Data model -/

/-- File content: raw bytes. -/
abbrev Bytes := List (Fin 256)

/-- One file of the storage folder. -/
structure StoredFile where
  name : String
  mtimeMs : Int
  content : Bytes
deriving DecidableEq, Repr

/-- The storage folder, in enumeration order. -/
abbrev Dir := List StoredFile

/-- The names of a folder, in enumeration order. -/
def Dir.names (d : Dir) : List String := d.map (fun f => f.name)

/-- No two entries of a folder share a name. -/
def Dir.WellFormed (d : Dir) : Prop := (Dir.names d).Nodup

instance (d : Dir) : Decidable (Dir.WellFormed d) := by
  unfold Dir.WellFormed; infer_instance

/-- The entry a path `uploads/<file>` denotes, if any. -/
def Dir.lookup (d : Dir) (file : String) : Option StoredFile :=
  d.find? (fun f => f.name == file)

/-- I/O failures of one run of a handler. -/
structure Faults where
  /-- `fs.readdir(uploadFolder, ..)` calls back with an error. -/
  readdir : Bool
  /-- `fs.stat` on this name calls back with an error. -/
  stat : String → Bool
  /-- `fs.unlink` on this name calls back with an error. -/
  unlink : String → Bool

/-- A run without any injected failure. -/
def Faults.none : Faults := ⟨false, fun _ => false, fun _ => false⟩

/-- `const uploadFolder = 'uploads'`. -/
def uploadFolder : String := "uploads"

/-- `const FILE_EXPIRY_TIME = 2 * 60 * 60 * 1000`. -/
def FILE_EXPIRY_TIME : Int := 2 * 60 * 60 * 1000

/-- `const MAX_FILE_SIZE = 500 * 1024 * 1024`. -/
def MAX_FILE_SIZE : Nat := 500 * 1024 * 1024

/-! ## File-system primitives -/

/-- `fs.readdir(uploadFolder, cb)`: the names of the folder, or an error. -/
def fsReaddir (fl : Faults) (d : Dir) : Option (List String) :=
  if fl.readdir then Option.none else some (Dir.names d)

/-- `fs.stat(path.join(uploadFolder, file), cb)`: the `mtimeMs` of the entry, or
an error (an injected failure, or no such entry). -/
def fsStat (fl : Faults) (d : Dir) (file : String) : Option Int :=
  if fl.stat file then Option.none else (Dir.lookup d file).map (fun f => f.mtimeMs)

/-- `fs.unlink(path.join(uploadFolder, file), cb)`: the folder without the entry,
or an error (an injected failure, or no such entry). -/
def fsUnlink (fl : Faults) (d : Dir) (file : String) : Option Dir :=
  if fl.unlink file then Option.none
  else if (Dir.lookup d file).isSome then some (d.filter (fun f => f.name != file))
  else Option.none

/-! ## Console output and responses -/

/-- One line of console output, by call site. -/
inductive LogEntry where
  /-- `console.error('Cleanup error:', err)`. -/
  | cleanupError
  /-- `console.log('Deleted expired file: ' + file)`. -/
  | deletedExpired (file : String)
  /-- `console.error('File upload error:', err.message)`. -/
  | fileUploadError (message : String)
  /-- `console.log('File uploaded: <originalname> (<sizeMB> MB)')`, with the size
  in bytes the megabyte figure is rendered from. -/
  | fileUploaded (originalname : String) (size : Nat)
deriving DecidableEq, Repr

/-- One record of the listing. -/
structure FileInfo where
  name : String
  uploadTime : Int
  expiryTime : Int
deriving DecidableEq, Repr

/-- The body of a response. -/
inductive Body where
  /-- `res.send(text)`. -/
  | text (s : String)
  /-- `res.json({ error: msg })`. -/
  | jsonError (msg : String)
  /-- `res.json(array)`. -/
  | jsonArray (files : List FileInfo)
deriving DecidableEq, Repr

/-- An HTTP response: status code and body. -/
structure Response where
  status : Nat
  body : Body
deriving DecidableEq, Repr

/-- What a handler does, in program order. -/
inductive Effect where
  | log (e : LogEntry)
  | respond (r : Response)
deriving DecidableEq, Repr

/-- The responses among the effects of a handler. -/
def responses (es : List Effect) : List Response :=
  es.filterMap (fun e => match e with
    | Effect.respond r => some r
    | Effect.log _ => Option.none)

/-! ## Retention sweeper (`cleanupOldFiles`, lines 18-36) -/

/-- The body of `files.forEach(file => ..)`: stat the entry, and unlink it when
its age is above the threshold. A failing stat returns silently; a failing
unlink logs nothing; a successful unlink logs the deletion. -/
def cleanupFile (fl : Faults) (now : Int) (st : Dir × List LogEntry) (file : String) :
    Dir × List LogEntry :=
  match fsStat fl st.1 file with
  | Option.none => st
  | some mtimeMs =>
    let fileAge := now - mtimeMs
    if fileAge > FILE_EXPIRY_TIME then
      match fsUnlink fl st.1 file with
      | Option.none => st
      | some d => (d, st.2 ++ [LogEntry.deletedExpired file])
    else st

/-- One run of `cleanupOldFiles` at time `now = Date.now()`: the folder after
the run and the console lines it wrote. -/
def cleanupOldFiles (fl : Faults) (now : Int) (d : Dir) : Dir × List LogEntry :=
  match fsReaddir fl d with
  | Option.none => (d, [LogEntry.cleanupError])
  | some files => files.foldl (cleanupFile fl now) (d, [])

/-! ## Listing handler (`GET /files`, lines 104-133) -/

/-- The promise built for one entry: `null` when stat fails, else the record. -/
def fileInfoPromise (fl : Faults) (d : Dir) (file : String) : Option FileInfo :=
  match fsStat fl d file with
  | Option.none => Option.none
  | some mtimeMs =>
    let uploadTime := mtimeMs
    let expiryTime := uploadTime + FILE_EXPIRY_TIME
    some { name := file, uploadTime := uploadTime, expiryTime := expiryTime }

/-- The handler of `GET /files`: the response and the folder it leaves. -/
def getFiles (fl : Faults) (d : Dir) : Response × Dir :=
  match fsReaddir fl d with
  | Option.none => ({ status := 500, body := Body.jsonError "Unable to list files." }, d)
  | some files =>
    let fileInfos := files.map (fileInfoPromise fl d)
    ({ status := 200, body := Body.jsonArray (fileInfos.filterMap id) }, d)

/-- The array a listing response carries (empty for an error response). -/
def Response.files (r : Response) : List FileInfo :=
  match r.body with
  | Body.jsonArray fs => fs
  | _ => []

/-! ## Upload handler (`POST /upload`, lines 55-101) -/

/-- The file part of a multipart request as the middleware sees it: the
client-supplied file name and the bytes. -/
structure FilePart where
  originalname : String
  content : Bytes
deriving DecidableEq, Repr

/-- The error value the upload middleware hands to the callback: `err.code`
(absent on errors that carry none) and `err.message`. -/
structure UploadError where
  code : Option String
  message : String
deriving DecidableEq, Repr

/-- The fields of `req.file` the callback reads. -/
structure ReqFile where
  originalname : String
  size : Nat
deriving DecidableEq, Repr

/-- The `destination` function of the storage configuration (lines 56-58). -/
def storage_destination (_file : FilePart) : String := uploadFolder

/-- The `filename` function of the storage configuration (lines 59-61). -/
def storage_filename (file : FilePart) : String := file.originalname

/-- Modelled from the spec: the write of multer's disk storage engine (multer is
a dependency; its code is not among the sources), with the spec's overwrite
semantics: writing `content` at time `t` under `name` replaces content and
modification time of an existing entry of that name, in place, and creates the
entry otherwise. -/
def diskStorageWrite (d : Dir) (name : String) (content : Bytes) (t : Int) : Dir :=
  if (Dir.lookup d name).isSome then
    d.map (fun f => if f.name == name then { name := name, mtimeMs := t, content := content } else f)
  else d ++ [{ name := name, mtimeMs := t, content := content }]

/-- The error of the size limit. -/
def limitFileSizeError : UploadError :=
  { code := some "LIMIT_FILE_SIZE", message := "File too large" }

/-- Modelled from the spec: the middleware `upload.single('file')` that
`multer({ storage, limits: { fileSize } })` builds; multer is a dependency and
its code is not among the sources. Following the spec's upload contract: a
request without a file part reaches the callback with no error and no file; a
file whose size exceeds the ceiling is rejected with the size-limit error and
nothing of it is persisted (what was written under its name is removed); any
other write or parsing failure `ioErr` reaches the callback as that error and
stores nothing; otherwise the file is written to the storage folder under the
name the storage configuration gives, overwriting a file of that name, and
`req.file` describes it. Result: the callback's `err`, `req.file`, the folder. -/
def multerSingle (fileSize : Nat) (ioErr : Option UploadError) (part : Option FilePart)
    (t : Int) (d : Dir) : Option UploadError × Option ReqFile × Dir :=
  match part with
  | Option.none => (Option.none, Option.none, d)
  | some file =>
    if file.content.length > fileSize then
      (some limitFileSizeError, Option.none,
        d.filter (fun f => f.name != storage_filename file))
    else
      match ioErr with
      | some e => (some e, Option.none, d)
      | Option.none =>
        (Option.none,
          some { originalname := file.originalname, size := file.content.length },
          diskStorageWrite d (storage_filename file) file.content t)

/-- The callback given to `upload.single('file')` (lines 84-100). -/
def uploadCallback (err : Option UploadError) (file : Option ReqFile) : List Effect :=
  match err with
  | some e =>
    Effect.log (LogEntry.fileUploadError e.message) ::
      (if e.code = some "LIMIT_FILE_SIZE" then
        [Effect.respond { status := 413, body := Body.text "File too large" }]
      else
        [Effect.respond { status := 500, body := Body.text ("Upload error: " ++ e.message) }])
  | Option.none =>
    match file with
    | Option.none => [Effect.respond { status := 400, body := Body.text "No file selected" }]
    | some f =>
      [Effect.log (LogEntry.fileUploaded f.originalname f.size),
       Effect.respond { status := 200, body := Body.text "Upload complete" }]

/-- The handler of `POST /upload` at time `t`: its effects and the folder it
leaves. -/
def postUpload (ioErr : Option UploadError) (part : Option FilePart) (t : Int) (d : Dir) :
    List Effect × Dir :=
  let r := multerSingle MAX_FILE_SIZE ioErr part t d
  (uploadCallback r.1 r.2.1, r.2.2)

/-! ## Download handler (`GET /download/:filename`, lines 136-140) and paths -/

/-- The process: its working directory `process.cwd()` and the directory of the
server file `__dirname`, both absolute, as lists of path segments. -/
structure Proc where
  cwd : List String
  dirname : List String
deriving DecidableEq, Repr

/-- The whole disk: for each absolute folder path, the files in it. -/
abbrev Disk := List String → Dir

/-- Splitting a path string at `/`, the current segment accumulated in reverse. -/
def splitSlash : List Char → List Char → List String
  | [], acc => [String.mk acc.reverse]
  | c :: cs, acc =>
    if c = '/' then String.mk acc.reverse :: splitSlash cs [] else splitSlash cs (c :: acc)

/-- The segments of a path string. -/
def segments (s : String) : List String := splitSlash s.data []

/-- One step of path normalisation on a reversed stack of segments: empty and
`.` segments are dropped, `..` pops. -/
def normStep (stack : List String) (seg : String) : List String :=
  if seg = "" ∨ seg = "." then stack
  else if seg = ".." then stack.tail
  else seg :: stack

/-- Normalisation of an absolute path given by its segments. -/
def normalizeSegs (segs : List String) : List String :=
  (segs.foldl normStep []).reverse

/-- The file that the path strings `parts`, joined (`path.join`) and resolved
against the absolute folder `base`, denote: its folder and its name; nothing
when the joined path ends in `/`, `.` or `..`, which name a folder. -/
def fileTarget (base : List String) (parts : List String) : Option (List String × String) :=
  let segs := parts.flatMap segments
  match segs.getLast? with
  | Option.none => Option.none
  | some name =>
    if name = "" ∨ name = "." ∨ name = ".." then Option.none
    else some (normalizeSegs (base ++ segs.dropLast), name)

/-- The write of a successful upload on the disk: the storage engine opens
`path.join(destination, filename)`, a relative path, which the file system
resolves against the working directory. Nothing when the path names no file. -/
def uploadWrite (p : Proc) (file : FilePart) (t : Int) (disk : Disk) : Option Disk :=
  match fileTarget p.cwd [storage_destination file, storage_filename file] with
  | Option.none => Option.none
  | some (folder, name) =>
    some (Function.update disk folder (diskStorageWrite (disk folder) name file.content t))

/-- The handler of `GET /download/:filename`: `res.download` of
`path.join(__dirname, uploadFolder, filename)`; the content streamed, or nothing
(the not-found outcome) when no file is at that path. -/
def getDownload (p : Proc) (disk : Disk) (filename : String) : Option Bytes :=
  let filePath := fileTarget p.dirname [uploadFolder, filename]
  match filePath with
  | Option.none => Option.none
  | some (folder, name) => (Dir.lookup (disk folder) name).map (fun f => f.content)

/-- The folder the relative name `uploads` denotes for the sweeper, the listing
and the upload: `uploadFolder` resolved against the working directory. -/
def storageFolder (p : Proc) : List String := normalizeSegs (p.cwd ++ segments uploadFolder)

/-- A sequence of sweeps, each with its own time and failures, oldest first. -/
def runSweeps (sweeps : List (Int × Faults)) (d : Dir) : Dir :=
  sweeps.foldl (fun cur s => (cleanupOldFiles s.2 s.1 cur).1) d

/-- The sweep at time `now` removes the name `file` from the folder `d`: neither
stat nor unlink fails on it, and the entry stat reports is older than the
threshold. -/
def swept (fl : Faults) (now : Int) (d : Dir) (file : String) : Bool :=
  !fl.stat file && !fl.unlink file &&
    (match Dir.lookup d file with
     | some f => decide (now - f.mtimeMs > FILE_EXPIRY_TIME)
     | Option.none => false)

/-! ## Lemmas on the folder -/

theorem lookup_filter (p : StoredFile → Bool) (m : String) (cur : Dir)
    (h : ∀ f ∈ cur, f.name = m → p f = true) :
    Dir.lookup (cur.filter p) m = Dir.lookup cur m := by
  induction cur with
  | nil => rfl
  | cons a l ih =>
    have ih1 := ih (fun f hf hn => h f (List.mem_cons_of_mem a hf) hn)
    unfold Dir.lookup at ih1 ⊢
    by_cases hp : p a = true
    · rw [List.filter_cons_of_pos hp]
      by_cases hn : a.name = m
      · simp [List.find?_cons, hn]
      · simp [List.find?_cons, hn, ih1]
    · have hn : a.name ≠ m := fun hn => hp (h a (List.mem_cons_self a l) hn)
      rw [List.filter_cons_of_neg hp]
      simp [List.find?_cons, hn, ih1]

theorem swept_filter (fl : Faults) (now : Int) (p : StoredFile → Bool) (m : String) (cur : Dir)
    (h : ∀ f ∈ cur, f.name = m → p f = true) :
    swept fl now (cur.filter p) m = swept fl now cur m := by
  unfold swept
  rw [lookup_filter p m cur h]

theorem lookup_some_name {d : Dir} {m : String} {f : StoredFile}
    (h : Dir.lookup d m = some f) : f.name = m ∧ f ∈ d := by
  unfold Dir.lookup at h
  have h1 := List.find?_some h
  have h2 := List.mem_of_find?_eq_some h
  exact ⟨by simpa using h1, h2⟩

theorem lookup_of_mem {d : Dir} (hwf : Dir.WellFormed d) {f : StoredFile} (hf : f ∈ d) :
    Dir.lookup d f.name = some f := by
  induction d with
  | nil => cases hf
  | cons a l ih =>
    unfold Dir.WellFormed Dir.names at hwf
    rw [List.map_cons, List.nodup_cons] at hwf
    unfold Dir.lookup
    rcases List.mem_cons.mp hf with rfl | hmem
    · simp [List.find?_cons]
    · have hne : a.name ≠ f.name := by
        intro he
        exact hwf.1 (he ▸ List.mem_map_of_mem (fun g => g.name) hmem)
      have := ih hwf.2 hmem
      unfold Dir.lookup at this
      simp [List.find?_cons, hne, this]

theorem lookup_isSome_iff (d : Dir) (m : String) :
    (Dir.lookup d m).isSome = true ↔ m ∈ Dir.names d := by
  unfold Dir.lookup Dir.names
  rw [List.find?_isSome]
  simp only [List.mem_map, beq_iff_eq]

/-! ## Lemmas on the sweeper -/

theorem cleanupFile_dir (fl : Faults) (now : Int) (cur : Dir) (log : List LogEntry)
    (n : String) :
    (cleanupFile fl now (cur, log) n).1 =
      cur.filter (fun f => !(f.name == n && swept fl now cur n)) := by
  have hself : ∀ (b : Bool), b = false →
      cur.filter (fun f => !(f.name == n && b)) = cur := by
    intro b hb
    subst hb
    simp
  unfold cleanupFile fsStat fsUnlink
  by_cases hs : fl.stat n = true
  · simp only [hs, if_true]
    rw [hself]; simp [swept, hs]
  · simp only [hs]
    cases hl : Dir.lookup cur n with
    | none =>
      simp only [Option.map_none', Bool.false_eq_true, if_false]
      rw [hself]; simp [swept, hl]
    | some f =>
      simp only [Option.map_some', Bool.false_eq_true, if_false]
      by_cases hage : now - f.mtimeMs > FILE_EXPIRY_TIME
      · simp only [hage, if_true]
        by_cases hu : fl.unlink n = true
        · simp only [hu, if_true]
          rw [hself]; simp [swept, hu]
        · have hsw : swept fl now cur n = true := by
            simp [swept, hs, hu, hl, hage]
          simp only [hu, Bool.false_eq_true, if_false, Option.isSome_some, if_true, hsw]
          apply List.filter_congr
          intro x _
          simp [bne]
      · simp only [hage, if_false]
        rw [hself]; simp [swept, hl, hage]

theorem foldl_cleanupFile_dir (fl : Faults) (now : Int) (fs : List String) :
    ∀ (cur : Dir) (log : List LogEntry),
      (fs.foldl (cleanupFile fl now) (cur, log)).1 =
        cur.filter (fun f => !(decide (f.name ∈ fs) && swept fl now cur f.name)) := by
  induction fs with
  | nil => intro cur log; simp
  | cons n rest ih =>
    intro cur log
    rw [List.foldl_cons]
    have hst : cleanupFile fl now (cur, log) n =
        ((cleanupFile fl now (cur, log) n).1, (cleanupFile fl now (cur, log) n).2) := rfl
    rw [hst, ih, cleanupFile_dir, List.filter_filter]
    apply List.filter_congr
    intro f hf
    by_cases hn : f.name = n
    · by_cases hsw : swept fl now cur n = true
      · simp [hn, hsw]
      · have hsw0 : swept fl now cur n = false := by simpa using hsw
        have hq : cur.filter (fun g => !(g.name == n && swept fl now cur n)) = cur := by
          rw [hsw0]; simp
        rw [hq]
        simp [hn, hsw0]
    · have hkeep : swept fl now (cur.filter (fun g => !(g.name == n && swept fl now cur n)))
          f.name = swept fl now cur f.name := by
        apply swept_filter
        intro g _ hg
        have : g.name ≠ n := fun h => hn (hg ▸ h)
        simp [this]
      rw [hkeep]
      simp [hn]

/-- One sweep whose directory read succeeds keeps exactly the entries whose name
it does not remove. -/
theorem cleanupOldFiles_dir (fl : Faults) (now : Int) (d : Dir) (hr : fl.readdir = false) :
    (cleanupOldFiles fl now d).1 = d.filter (fun f => !(swept fl now d f.name)) := by
  unfold cleanupOldFiles fsReaddir
  simp only [hr, Bool.false_eq_true, if_false]
  rw [foldl_cleanupFile_dir]
  apply List.filter_congr
  intro f hf
  have : f.name ∈ Dir.names d := List.mem_map_of_mem (fun g => g.name) hf
  simp [this]

/-- A sweep whose directory read fails leaves the folder as it is. -/
theorem cleanupOldFiles_readdir_fails (fl : Faults) (now : Int) (d : Dir)
    (hr : fl.readdir = true) :
    cleanupOldFiles fl now d = (d, [LogEntry.cleanupError]) := by
  unfold cleanupOldFiles fsReaddir
  simp [hr]

theorem filter_wellFormed (p : StoredFile → Bool) (d : Dir) (hwf : Dir.WellFormed d) :
    Dir.WellFormed (d.filter p) := by
  unfold Dir.WellFormed Dir.names at hwf ⊢
  exact List.Nodup.sublist ((List.filter_sublist d).map _) hwf

/-- A sweep keeps the folder well formed. -/
theorem cleanupOldFiles_wellFormed (fl : Faults) (now : Int) (d : Dir)
    (hwf : Dir.WellFormed d) : Dir.WellFormed (cleanupOldFiles fl now d).1 := by
  cases hr : fl.readdir with
  | true => rw [cleanupOldFiles_readdir_fails fl now d hr]; exact hwf
  | false => rw [cleanupOldFiles_dir fl now d hr]; exact filter_wellFormed _ d hwf

/-- A sweep never removes a name whose stat'd entry is at most the threshold
old: the path keeps denoting the same entry. -/
theorem cleanupOldFiles_keeps (fl : Faults) (now : Int) (d : Dir) (n : String)
    (f : StoredFile) (hl : Dir.lookup d n = some f)
    (hage : now - f.mtimeMs ≤ FILE_EXPIRY_TIME) :
    Dir.lookup (cleanupOldFiles fl now d).1 n = some f := by
  cases hr : fl.readdir with
  | true => rw [cleanupOldFiles_readdir_fails fl now d hr]; exact hl
  | false =>
    rw [cleanupOldFiles_dir fl now d hr, lookup_filter _ n d, hl]
    intro g _ hg
    have : ¬ (now - f.mtimeMs > FILE_EXPIRY_TIME) := not_lt.mpr hage
    simp [swept, hg, hl, this]

/-! ## Lemmas on the listing -/

theorem getFiles_files (fl : Faults) (d : Dir) (hr : fl.readdir = false) :
    getFiles fl d =
      ({ status := 200,
         body := Body.jsonArray ((Dir.names d).filterMap (fileInfoPromise fl d)) }, d) := by
  unfold getFiles fsReaddir
  simp only [hr, Bool.false_eq_true, if_false]
  rw [List.filterMap_map]
  rfl

theorem fileInfoPromise_name {fl : Faults} {d : Dir} {n : String} {r : FileInfo}
    (h : fileInfoPromise fl d n = some r) :
    r.name = n ∧ ∃ f, Dir.lookup d n = some f ∧ fl.stat n = false ∧
      r = { name := n, uploadTime := f.mtimeMs, expiryTime := f.mtimeMs + FILE_EXPIRY_TIME } := by
  unfold fileInfoPromise fsStat at h
  by_cases hs : fl.stat n = true
  · simp [hs] at h
  · cases hl : Dir.lookup d n with
    | none => simp [hs, hl] at h
    | some f =>
      simp only [hs, hl, Option.map_some', Bool.false_eq_true, if_false, Option.some.injEq] at h
      subst h
      exact ⟨rfl, f, rfl, by simpa using hs, rfl⟩

/-- Every record of a listing names an entry of the folder. -/
theorem getFiles_name_mem (fl : Faults) (d : Dir) (r : FileInfo)
    (hrec : r ∈ (getFiles fl d).1.files) : r.name ∈ Dir.names d := by
  cases hr : fl.readdir with
  | true =>
    have : (getFiles fl d).1.files = [] := by
      unfold getFiles fsReaddir
      simp [hr, Response.files]
    rw [this] at hrec
    cases hrec
  | false =>
    rw [getFiles_files fl d hr] at hrec
    simp only [Response.files, List.mem_filterMap] at hrec
    obtain ⟨n, hn, hp⟩ := hrec
    rw [(fileInfoPromise_name hp).1]
    exact hn

/-- A listing whose directory read and whose stat of `n` succeed holds the
record of the entry at `n`. -/
theorem getFiles_mem_of_lookup (fl : Faults) (d : Dir) (n : String) (f : StoredFile)
    (hr : fl.readdir = false) (hs : fl.stat n = false) (hl : Dir.lookup d n = some f) :
    ({ name := n, uploadTime := f.mtimeMs, expiryTime := f.mtimeMs + FILE_EXPIRY_TIME } :
      FileInfo) ∈ (getFiles fl d).1.files := by
  rw [getFiles_files fl d hr]
  simp only [Response.files, List.mem_filterMap]
  refine ⟨n, ?_, ?_⟩
  · rw [← lookup_isSome_iff, hl]; rfl
  · simp [fileInfoPromise, fsStat, hs, hl]

theorem filterMap_ite_eq_map_filter {α β : Type} (c : α → Bool) (g : α → β) (l : List α) :
    l.filterMap (fun a => if c a = true then Option.none else some (g a)) =
      (l.filter (fun a => !c a)).map g := by
  induction l with
  | nil => rfl
  | cons a l ih =>
    by_cases h : c a = true
    · simp [List.filterMap_cons, h, ih]
    · simp [List.filterMap_cons, h, ih]

/-! ## The upload callback -/

/-- C1: the callback of `POST /upload` decides its response in this order: an
error with code LIMIT_FILE_SIZE gives 413 "File too large"; any other error
gives 500 "Upload error: " followed by the message; no error and no file gives
400 "No file selected"; no error and a file gives 200 "Upload complete"; and in
every case exactly one response is sent. -/
theorem uploadCallback_response :
    (∀ (e : UploadError) (file : Option ReqFile), e.code = some "LIMIT_FILE_SIZE" →
      responses (uploadCallback (some e) file) =
        [{ status := 413, body := Body.text "File too large" }]) ∧
    (∀ (e : UploadError) (file : Option ReqFile), e.code ≠ some "LIMIT_FILE_SIZE" →
      responses (uploadCallback (some e) file) =
        [{ status := 500, body := Body.text ("Upload error: " ++ e.message) }]) ∧
    responses (uploadCallback Option.none Option.none) =
      [{ status := 400, body := Body.text "No file selected" }] ∧
    (∀ (f : ReqFile), responses (uploadCallback Option.none (some f)) =
      [{ status := 200, body := Body.text "Upload complete" }]) ∧
    (∀ (err : Option UploadError) (file : Option ReqFile),
      (responses (uploadCallback err file)).length = 1) := by
  refine ⟨?_, ?_, rfl, fun _ => rfl, ?_⟩
  · intro e file h
    simp [uploadCallback, responses, h]
  · intro e file h
    simp [uploadCallback, responses, h]
  · intro err file
    cases err with
    | none => cases file <;> rfl
    | some e =>
      by_cases h : e.code = some "LIMIT_FILE_SIZE"
      · simp [uploadCallback, responses, h]
      · simp [uploadCallback, responses, h]

/-- C1, at concrete outcomes: a size-limit error answers 413 and an error
without a code answers 500 with its message. -/
theorem uploadCallback_response_witness :
    responses (uploadCallback (some { code := some "LIMIT_FILE_SIZE", message := "File too large" })
        Option.none) = [{ status := 413, body := Body.text "File too large" }] ∧
    responses (uploadCallback (some { code := Option.none, message := "disk full" })
        Option.none) = [{ status := 500, body := Body.text ("Upload error: " ++ "disk full") }] :=
  ⟨uploadCallback_response.1 _ _ rfl, uploadCallback_response.2.1 _ _ (by decide)⟩

/-! ## The sweeper -/

/-- C2: after one sweep in which the directory read, every stat and every
unlink succeed, every file older than 7200000 ms is gone from the folder and
appears in no later listing. -/
theorem cleanupOldFiles_removes_expired (fl : Faults) (now : Int) (d : Dir)
    (hwf : Dir.WellFormed d) (hr : fl.readdir = false)
    (hs : ∀ n ∈ Dir.names d, fl.stat n = false)
    (hu : ∀ n ∈ Dir.names d, fl.unlink n = false) :
    ∀ f ∈ d, now - f.mtimeMs > 7200000 →
      f.name ∉ Dir.names (cleanupOldFiles fl now d).1 ∧
      ∀ (fl2 : Faults), ∀ r ∈ (getFiles fl2 (cleanupOldFiles fl now d).1).1.files,
        r.name ≠ f.name := by
  intro f hf hage
  have hn : f.name ∈ Dir.names d := List.mem_map_of_mem (fun g => g.name) hf
  have hgone : f.name ∉ Dir.names (cleanupOldFiles fl now d).1 := by
    rw [cleanupOldFiles_dir fl now d hr]
    intro hmem
    unfold Dir.names at hmem
    obtain ⟨g, hg, hgn⟩ := List.mem_map.mp hmem
    have hkeep := (List.mem_filter.mp hg).2
    have hage2 : now - f.mtimeMs > FILE_EXPIRY_TIME := by
      simpa [FILE_EXPIRY_TIME] using hage
    have hgn2 : g.name = f.name := hgn
    simp [swept, hgn2, hs _ hn, hu _ hn, lookup_of_mem hwf hf, hage2] at hkeep
  refine ⟨hgone, ?_⟩
  intro fl2 r hrec hname
  exact hgone (hname ▸ getFiles_name_mem fl2 _ r hrec)

/-- C2, on a folder of one old and one fresh file swept at 7200001 ms. -/
theorem cleanupOldFiles_removes_expired_witness :
    "old.txt" ∉ Dir.names (cleanupOldFiles Faults.none 7200001
        [⟨"old.txt", 0, [1]⟩, ⟨"new.txt", 7000000, [2]⟩]).1 ∧
    ∀ (fl2 : Faults), ∀ r ∈ (getFiles fl2 (cleanupOldFiles Faults.none 7200001
        [⟨"old.txt", 0, [1]⟩, ⟨"new.txt", 7000000, [2]⟩]).1).1.files, r.name ≠ "old.txt" :=
  cleanupOldFiles_removes_expired Faults.none 7200001
    [⟨"old.txt", 0, [1]⟩, ⟨"new.txt", 7000000, [2]⟩] (by decide) rfl
    (fun _ _ => rfl) (fun _ _ => rfl) ⟨"old.txt", 0, [1]⟩ (by decide) (by decide)

/-- C8: in a sweep whose directory read succeeds, whatever the entries on which
stat or unlink fails, every entry older than 7200000 ms whose own stat and
unlink succeed is deleted, and every entry on which stat or unlink fails stays
in the folder as it was. -/
theorem cleanupOldFiles_failure_isolation (fl : Faults) (now : Int) (d : Dir)
    (hwf : Dir.WellFormed d) (hr : fl.readdir = false) :
    (∀ f ∈ d, fl.stat f.name = false → fl.unlink f.name = false →
      now - f.mtimeMs > 7200000 → f.name ∉ Dir.names (cleanupOldFiles fl now d).1) ∧
    (∀ f ∈ d, (fl.stat f.name = true ∨ fl.unlink f.name = true) →
      f ∈ (cleanupOldFiles fl now d).1 ∧
      Dir.lookup (cleanupOldFiles fl now d).1 f.name = some f) := by
  constructor
  · intro f hf hs hu hage hmem
    rw [cleanupOldFiles_dir fl now d hr] at hmem
    unfold Dir.names at hmem
    obtain ⟨g, hg, hgn⟩ := List.mem_map.mp hmem
    have hkeep := (List.mem_filter.mp hg).2
    have hage2 : now - f.mtimeMs > FILE_EXPIRY_TIME := by
      simpa [FILE_EXPIRY_TIME] using hage
    have hgn2 : g.name = f.name := hgn
    simp [swept, hgn2, hs, hu, lookup_of_mem hwf hf, hage2] at hkeep
  · intro f hf hfail
    have hmem : f ∈ (cleanupOldFiles fl now d).1 := by
      rw [cleanupOldFiles_dir fl now d hr]
      refine List.mem_filter.mpr ⟨hf, ?_⟩
      rcases hfail with h | h <;> simp [swept, h]
    exact ⟨hmem, lookup_of_mem (cleanupOldFiles_wellFormed fl now d hwf) hmem⟩

/-- C8, on three old files where stat fails on the first and unlink on the
second: the third is deleted, the first stays. -/
theorem cleanupOldFiles_failure_isolation_witness :
    "c" ∉ Dir.names (cleanupOldFiles ⟨false, fun n => n == "a", fun n => n == "b"⟩ 9000000
        [⟨"a", 0, [1]⟩, ⟨"b", 0, [2]⟩, ⟨"c", 0, [3]⟩]).1 ∧
    (⟨"a", 0, [1]⟩ ∈ (cleanupOldFiles ⟨false, fun n => n == "a", fun n => n == "b"⟩ 9000000
        [⟨"a", 0, [1]⟩, ⟨"b", 0, [2]⟩, ⟨"c", 0, [3]⟩]).1 ∧
      Dir.lookup (cleanupOldFiles ⟨false, fun n => n == "a", fun n => n == "b"⟩ 9000000
        [⟨"a", 0, [1]⟩, ⟨"b", 0, [2]⟩, ⟨"c", 0, [3]⟩]).1 "a" = some ⟨"a", 0, [1]⟩) :=
  ⟨(cleanupOldFiles_failure_isolation ⟨false, fun n => n == "a", fun n => n == "b"⟩ 9000000
      [⟨"a", 0, [1]⟩, ⟨"b", 0, [2]⟩, ⟨"c", 0, [3]⟩] (by decide) rfl).1
      ⟨"c", 0, [3]⟩ (by decide) (by decide) (by decide) (by decide),
   (cleanupOldFiles_failure_isolation ⟨false, fun n => n == "a", fun n => n == "b"⟩ 9000000
      [⟨"a", 0, [1]⟩, ⟨"b", 0, [2]⟩, ⟨"c", 0, [3]⟩] (by decide) rfl).2
      ⟨"a", 0, [1]⟩ (by decide) (Or.inl (by decide))⟩

theorem cleanupFile_log (fl : Faults) (now : Int) (st : Dir × List LogEntry) (n : String)
    (P : LogEntry → Prop) (hP : ∀ l ∈ st.2, P l)
    (hn : fl.stat n = false → fl.unlink n = false → P (LogEntry.deletedExpired n)) :
    ∀ l ∈ (cleanupFile fl now st n).2, P l := by
  unfold cleanupFile fsStat fsUnlink
  by_cases hs : fl.stat n = true
  · simpa [hs] using hP
  · cases hl : Dir.lookup st.1 n with
    | none => simpa [hs, hl] using hP
    | some f =>
      by_cases hage : now - f.mtimeMs > FILE_EXPIRY_TIME
      · by_cases hu : fl.unlink n = true
        · simpa [hs, hl, hage, hu] using hP
        · simp only [hs, hl, hage, hu, Option.map_some', Bool.false_eq_true, if_false, if_true,
            Option.isSome_some]
          intro l hmem
          rcases List.mem_append.mp hmem with h | h
          · exact hP l h
          · rw [List.mem_singleton.mp h]
            exact hn (by simpa using hs) (by simpa using hu)
      · simpa [hs, hl, hage] using hP

theorem foldl_cleanupFile_log (fl : Faults) (now : Int) (fs : List String) :
    ∀ (st : Dir × List LogEntry),
      (∀ l ∈ st.2, ∃ n, l = LogEntry.deletedExpired n ∧ fl.stat n = false ∧
        fl.unlink n = false) →
      ∀ l ∈ (fs.foldl (cleanupFile fl now) st).2,
        ∃ n, l = LogEntry.deletedExpired n ∧ fl.stat n = false ∧ fl.unlink n = false := by
  induction fs with
  | nil => intro st h; simpa using h
  | cons n rest ih =>
    intro st h
    rw [List.foldl_cons]
    apply ih
    exact cleanupFile_log fl now st n _ h (fun hs hu => ⟨n, rfl, hs, hu⟩)

theorem cleanupFile_log_eq (fl : Faults) (now : Int) (cur : Dir) (log : List LogEntry)
    (n : String) :
    (cleanupFile fl now (cur, log) n).2 =
      log ++ (if swept fl now cur n = true then [LogEntry.deletedExpired n] else []) := by
  unfold cleanupFile fsStat fsUnlink
  by_cases hs : fl.stat n = true
  · simp [hs, swept]
  · cases hl : Dir.lookup cur n with
    | none => simp [hs, hl, swept]
    | some f =>
      by_cases hage : now - f.mtimeMs > FILE_EXPIRY_TIME
      · by_cases hu : fl.unlink n = true
        · simp [hs, hl, hage, hu, swept]
        · simp [hs, hl, hage, hu, swept]
      · simp [hs, hl, hage, swept]

theorem foldl_cleanupFile_log_mem (fl : Faults) (now : Int) (n : String) (fs : List String) :
    ∀ (cur : Dir) (log : List LogEntry),
      LogEntry.deletedExpired n ∈ (fs.foldl (cleanupFile fl now) (cur, log)).2 ↔
        LogEntry.deletedExpired n ∈ log ∨ (n ∈ fs ∧ swept fl now cur n = true) := by
  induction fs with
  | nil => intro cur log; simp
  | cons m rest ih =>
    intro cur log
    rw [List.foldl_cons]
    have hst : cleanupFile fl now (cur, log) m =
        ((cleanupFile fl now (cur, log) m).1, (cleanupFile fl now (cur, log) m).2) := rfl
    rw [hst, ih, cleanupFile_dir, cleanupFile_log_eq]
    by_cases hnm : n = m
    · subst hnm
      by_cases hsw : swept fl now cur n = true
      · simp [hsw]
      · have hsw0 : swept fl now cur n = false := by simpa using hsw
        have hq : cur.filter (fun g => !(g.name == n && swept fl now cur n)) = cur := by
          rw [hsw0]; simp
        rw [hq]
        simp [hsw0]
    · have hkeep : swept fl now (cur.filter (fun g => !(g.name == m && swept fl now cur m))) n =
          swept fl now cur n := by
        apply swept_filter
        intro g _ hg
        have : g.name ≠ m := fun h => hnm (hg ▸ h)
        simp [this]
      rw [hkeep]
      have hne : LogEntry.deletedExpired n ≠ LogEntry.deletedExpired m := by
        intro h
        exact hnm (LogEntry.deletedExpired.inj h)
      by_cases hsw : swept fl now cur m = true
      · simp [hsw, hne, hnm]
      · simp [hsw, hnm]

theorem mem_names_cleanupOldFiles (fl : Faults) (now : Int) (d : Dir) (n : String)
    (hr : fl.readdir = false) :
    n ∈ Dir.names (cleanupOldFiles fl now d).1 ↔
      n ∈ Dir.names d ∧ swept fl now d n = false := by
  rw [cleanupOldFiles_dir fl now d hr]
  unfold Dir.names
  simp only [List.mem_map, List.mem_filter]
  constructor
  · rintro ⟨f, ⟨hf, hk⟩, hfn⟩
    subst hfn
    exact ⟨⟨f, hf, rfl⟩, by simpa using hk⟩
  · rintro ⟨⟨f, hf, hfn⟩, hk⟩
    subst hfn
    exact ⟨f, ⟨hf, by simpa using hk⟩, rfl⟩

/-- C9 fails as stated: on a folder of two old files where stat fails on `a` and
unlink fails on `b`, the sweep skips both and writes no console line at all. -/
theorem cleanupOldFiles_failures_unlogged :
    cleanupOldFiles ⟨false, fun n => n == "a", fun n => n == "b"⟩ 9000000
        [⟨"a", 0, [1]⟩, ⟨"b", 0, [2]⟩] =
      ([⟨"a", 0, [1]⟩, ⟨"b", 0, [2]⟩], []) := by
  decide

/-- C9 as amended: a directory-read failure writes exactly the line
"Cleanup error:". When the read succeeds, every line the sweep writes is a
"Deleted expired file" line for a name on which neither stat nor unlink failed,
and there is such a line for a name exactly when the sweep deleted that name;
so a failing stat or unlink on an entry writes no line. -/
theorem cleanupOldFiles_log (fl : Faults) (now : Int) (d : Dir) :
    (fl.readdir = true → (cleanupOldFiles fl now d).2 = [LogEntry.cleanupError]) ∧
    (fl.readdir = false → ∀ l ∈ (cleanupOldFiles fl now d).2,
      ∃ n, l = LogEntry.deletedExpired n ∧ fl.stat n = false ∧ fl.unlink n = false) ∧
    (fl.readdir = false → ∀ n : String,
      (LogEntry.deletedExpired n ∈ (cleanupOldFiles fl now d).2 ↔
        n ∈ Dir.names d ∧ n ∉ Dir.names (cleanupOldFiles fl now d).1)) := by
  refine ⟨?_, ?_, ?_⟩
  · intro hr
    rw [cleanupOldFiles_readdir_fails fl now d hr]
  · intro hr
    unfold cleanupOldFiles fsReaddir
    simp only [hr, Bool.false_eq_true, if_false]
    apply foldl_cleanupFile_log
    intro l hl
    cases hl
  · intro hr n
    rw [mem_names_cleanupOldFiles fl now d n hr]
    unfold cleanupOldFiles fsReaddir
    simp only [hr, Bool.false_eq_true, if_false]
    rw [foldl_cleanupFile_log_mem]
    constructor
    · rintro (h | ⟨hn, hsw⟩)
      · cases h
      · exact ⟨hn, fun hk => by simp [hsw] at hk⟩
    · rintro ⟨hn, hk⟩
      refine Or.inr ⟨hn, ?_⟩
      by_cases hsw : swept fl now d n = true
      · exact hsw
      · exact absurd ⟨hn, by simpa using hsw⟩ hk

/-- C9 as amended, on a failing directory read and on a sweep that deletes one
file. -/
theorem cleanupOldFiles_log_witness :
    (cleanupOldFiles ⟨true, fun _ => false, fun _ => false⟩ 5 [⟨"a", 0, [1]⟩]).2 =
      [LogEntry.cleanupError] ∧
    (∀ l ∈ (cleanupOldFiles Faults.none 9000000 [⟨"a", 0, [1]⟩]).2,
      ∃ n, l = LogEntry.deletedExpired n ∧ Faults.none.stat n = false ∧
        Faults.none.unlink n = false) ∧
    LogEntry.deletedExpired "a" ∈ (cleanupOldFiles Faults.none 9000000 [⟨"a", 0, [1]⟩]).2 :=
  ⟨(cleanupOldFiles_log ⟨true, fun _ => false, fun _ => false⟩ 5 [⟨"a", 0, [1]⟩]).1 rfl,
   (cleanupOldFiles_log Faults.none 9000000 [⟨"a", 0, [1]⟩]).2.1 rfl,
   ((cleanupOldFiles_log Faults.none 9000000 [⟨"a", 0, [1]⟩]).2.2 rfl "a").mpr
     ⟨by decide, by decide⟩⟩

/-! ## The listing -/

/-- C3: when the directory read succeeds, `GET /files` answers with the array
that holds, for each entry of the folder on which stat succeeds, in enumeration
order, the record of its name, its modification time and that time plus
7200000; entries whose stat fails give no record; the folder is unchanged. -/
theorem getFiles_records (fl : Faults) (d : Dir) (hwf : Dir.WellFormed d)
    (hr : fl.readdir = false) :
    (getFiles fl d).1 =
      { status := 200,
        body := Body.jsonArray ((d.filter (fun f => !fl.stat f.name)).map
          (fun f => { name := f.name, uploadTime := f.mtimeMs,
                      expiryTime := f.mtimeMs + 7200000 })) } ∧
    (getFiles fl d).2 = d := by
  rw [getFiles_files fl d hr]
  refine ⟨?_, rfl⟩
  have hrec : (Dir.names d).filterMap (fileInfoPromise fl d) =
      d.filterMap (fun f => if fl.stat f.name = true then Option.none
        else some ({ name := f.name, uploadTime := f.mtimeMs,
                     expiryTime := f.mtimeMs + 7200000 } : FileInfo)) := by
    unfold Dir.names
    rw [List.filterMap_map]
    apply List.filterMap_congr
    intro f hf
    simp only [Function.comp, fileInfoPromise, fsStat, lookup_of_mem hwf hf]
    by_cases hs : fl.stat f.name = true
    · simp [hs]
    · simp [hs, FILE_EXPIRY_TIME]
  rw [hrec, filterMap_ite_eq_map_filter]

/-- C3, on a folder of three files where stat fails on the second. -/
theorem getFiles_records_witness :
    (getFiles ⟨false, fun n => n == "b", fun _ => false⟩
        [⟨"a", 10, [1]⟩, ⟨"b", 20, [2]⟩, ⟨"c", 30, [3]⟩]).1 =
      { status := 200,
        body := Body.jsonArray
          (([⟨"a", 10, [1]⟩, ⟨"b", 20, [2]⟩, ⟨"c", 30, [3]⟩] : Dir).filter
            (fun f => !(f.name == "b"))
            |>.map (fun f => { name := f.name, uploadTime := f.mtimeMs,
                               expiryTime := f.mtimeMs + 7200000 })) } ∧
    (getFiles ⟨false, fun n => n == "b", fun _ => false⟩
        [⟨"a", 10, [1]⟩, ⟨"b", 20, [2]⟩, ⟨"c", 30, [3]⟩]).2 =
      [⟨"a", 10, [1]⟩, ⟨"b", 20, [2]⟩, ⟨"c", 30, [3]⟩] :=
  getFiles_records ⟨false, fun n => n == "b", fun _ => false⟩
    [⟨"a", 10, [1]⟩, ⟨"b", 20, [2]⟩, ⟨"c", 30, [3]⟩] (by decide) rfl

/-- C4: `GET /files` answers 500 with the payload error "Unable to list files."
exactly when the directory read fails; whenever the read succeeds it answers
200 with an array, whatever stat calls fail, and with the empty array when they
all fail. -/
theorem getFiles_error_iff (fl : Faults) (d : Dir) :
    ((getFiles fl d).1 = { status := 500, body := Body.jsonError "Unable to list files." } ↔
      fl.readdir = true) ∧
    (fl.readdir = false →
      ∃ files, (getFiles fl d).1 = { status := 200, body := Body.jsonArray files }) ∧
    (fl.readdir = false → (∀ n ∈ Dir.names d, fl.stat n = true) →
      (getFiles fl d).1 = { status := 200, body := Body.jsonArray [] }) := by
  refine ⟨?_, ?_, ?_⟩
  · constructor
    · intro h
      cases hr : fl.readdir with
      | true => rfl
      | false =>
        rw [getFiles_files fl d hr] at h
        simp at h
    · intro hr
      unfold getFiles fsReaddir
      simp [hr]
  · intro hr
    exact ⟨_, by rw [getFiles_files fl d hr]⟩
  · intro hr hall
    rw [getFiles_files fl d hr]
    have : (Dir.names d).filterMap (fileInfoPromise fl d) = [] := by
      rw [List.filterMap_eq_nil_iff]
      intro n hn
      simp [fileInfoPromise, fsStat, hall n hn]
    rw [this]

/-- C4, on a folder of two files where every stat fails. -/
theorem getFiles_error_iff_witness :
    (∃ files, (getFiles ⟨false, fun _ => true, fun _ => false⟩
        [⟨"a", 10, [1]⟩, ⟨"b", 20, [2]⟩]).1 =
      { status := 200, body := Body.jsonArray files }) ∧
    (getFiles ⟨false, fun _ => true, fun _ => false⟩ [⟨"a", 10, [1]⟩, ⟨"b", 20, [2]⟩]).1 =
      { status := 200, body := Body.jsonArray [] } :=
  ⟨(getFiles_error_iff ⟨false, fun _ => true, fun _ => false⟩
      [⟨"a", 10, [1]⟩, ⟨"b", 20, [2]⟩]).2.1 rfl,
   (getFiles_error_iff ⟨false, fun _ => true, fun _ => false⟩
      [⟨"a", 10, [1]⟩, ⟨"b", 20, [2]⟩]).2.2 rfl (fun _ _ => rfl)⟩

/-! ## Lemmas on the upload -/

theorem lookup_map_replace (n : String) (x : StoredFile) (hx : x.name = n) (d : Dir)
    (h : (Dir.lookup d n).isSome = true) :
    Dir.lookup (d.map (fun f => if f.name == n then x else f)) n = some x := by
  induction d with
  | nil => simp [Dir.lookup] at h
  | cons a l ih =>
    unfold Dir.lookup at h ih ⊢
    by_cases ha : a.name = n
    · simp [List.find?_cons, ha, hx]
    · have hl : (List.find? (fun f => f.name == n) l).isSome = true := by
        simpa [List.find?_cons, ha] using h
      have hb : (a.name == n) = false := by simpa using ha
      simp only [List.map_cons, List.find?_cons, hb, Bool.false_eq_true, if_false]
      exact ih hl

/-- After a write the path denotes the written file. -/
theorem lookup_diskStorageWrite (d : Dir) (n : String) (c : Bytes) (t : Int) :
    Dir.lookup (diskStorageWrite d n c t) n = some { name := n, mtimeMs := t, content := c } := by
  unfold diskStorageWrite
  by_cases h : (Dir.lookup d n).isSome = true
  · rw [if_pos h]
    exact lookup_map_replace n _ rfl d h
  · rw [if_neg h]
    have hnone : Dir.lookup d n = Option.none := by simpa using h
    unfold Dir.lookup at hnone ⊢
    rw [List.find?_append, hnone]
    simp [List.find?_cons]

theorem names_diskStorageWrite (d : Dir) (n : String) (c : Bytes) (t : Int) :
    Dir.names (diskStorageWrite d n c t) =
      if n ∈ Dir.names d then Dir.names d else Dir.names d ++ [n] := by
  unfold diskStorageWrite
  by_cases h : (Dir.lookup d n).isSome = true
  · rw [if_pos h, if_pos ((lookup_isSome_iff d n).mp h)]
    unfold Dir.names
    rw [List.map_map]
    apply List.map_congr_left
    intro f _
    by_cases hf : f.name = n <;> simp [hf]
  · rw [if_neg h, if_neg (fun hm => h ((lookup_isSome_iff d n).mpr hm))]
    simp [Dir.names]

/-- A write keeps the folder well formed. -/
theorem diskStorageWrite_wellFormed (d : Dir) (n : String) (c : Bytes) (t : Int)
    (hwf : Dir.WellFormed d) : Dir.WellFormed (diskStorageWrite d n c t) := by
  unfold Dir.WellFormed at hwf ⊢
  rw [names_diskStorageWrite]
  by_cases h : n ∈ Dir.names d
  · rw [if_pos h]; exact hwf
  · rw [if_neg h]
    rw [List.nodup_append]
    refine ⟨hwf, List.nodup_singleton n, ?_⟩
    intro a ha hb
    rw [List.mem_singleton] at hb
    exact h (hb ▸ ha)

theorem filter_name_eq_singleton {d : Dir} (hwf : Dir.WellFormed d) {x : StoredFile}
    (hx : x ∈ d) : d.filter (fun f => f.name == x.name) = [x] := by
  induction d with
  | nil => cases hx
  | cons a l ih =>
    unfold Dir.WellFormed Dir.names at hwf
    rw [List.map_cons, List.nodup_cons] at hwf
    rcases List.mem_cons.mp hx with rfl | hmem
    · have hnil : l.filter (fun f => f.name == x.name) = [] := by
        rw [List.filter_eq_nil_iff]
        intro g hg hgn
        have hgn2 : g.name = x.name := by simpa using hgn
        exact hwf.1 (hgn2 ▸ List.mem_map_of_mem (fun g => g.name) hg)
      simp [List.filter_cons, hnil]
    · have hne : a.name ≠ x.name := by
        intro he
        exact hwf.1 (he ▸ List.mem_map_of_mem (fun g => g.name) hmem)
      simp only [List.filter_cons, beq_iff_eq, hne, if_false]
      exact ih hwf.2 hmem

theorem mem_diskStorageWrite_of_ne (d : Dir) (n : String) (c : Bytes) (t : Int)
    (f : StoredFile) (hf : f.name ≠ n) : f ∈ diskStorageWrite d n c t ↔ f ∈ d := by
  unfold diskStorageWrite
  by_cases h : (Dir.lookup d n).isSome = true
  · rw [if_pos h, List.mem_map]
    constructor
    · rintro ⟨g, hg, hgf⟩
      by_cases hgn : g.name = n
      · simp only [hgn, beq_self_eq_true, if_true] at hgf
        exact absurd (hgf ▸ rfl) hf
      · simp only [beq_iff_eq, hgn, if_false] at hgf
        exact hgf ▸ hg
    · intro hmem
      exact ⟨f, hmem, by simp [hf]⟩
  · rw [if_neg h, List.mem_append, List.mem_singleton]
    constructor
    · rintro (hmem | heq)
      · exact hmem
      · exact absurd (heq ▸ rfl) hf
    · exact Or.inl

theorem diskStorageWrite_of_isSome (d : Dir) (n : String) (c : Bytes) (t : Int)
    (h : (Dir.lookup d n).isSome = true) :
    diskStorageWrite d n c t =
      d.map (fun f => if f.name == n
        then ({ name := n, mtimeMs := t, content := c } : StoredFile) else f) := by
  unfold diskStorageWrite
  rw [if_pos h]

/-- Writing twice under one name is writing the second content only. -/
theorem diskStorageWrite_twice (d : Dir) (n : String) (c1 c2 : Bytes) (t1 t2 : Int) :
    diskStorageWrite (diskStorageWrite d n c1 t1) n c2 t2 = diskStorageWrite d n c2 t2 := by
  have hsome : (Dir.lookup (diskStorageWrite d n c1 t1) n).isSome = true := by
    rw [lookup_diskStorageWrite]; rfl
  rw [diskStorageWrite_of_isSome _ n c2 t2 hsome]
  unfold diskStorageWrite
  by_cases h : (Dir.lookup d n).isSome = true
  · simp only [if_pos h]
    rw [List.map_map]
    apply List.map_congr_left
    intro f _
    by_cases hf : f.name = n <;> simp [hf]
  · simp only [if_neg h]
    rw [List.map_append]
    have hsame : d.map (fun f => if f.name == n
        then ({ name := n, mtimeMs := t2, content := c2 } : StoredFile) else f) = d := by
      conv_rhs => rw [← List.map_id d]
      apply List.map_congr_left
      intro f hmem
      have hne : f.name ≠ n := by
        intro he
        exact h ((lookup_isSome_iff d n).mpr (he ▸ List.mem_map_of_mem (fun g => g.name) hmem))
      simp [hne]
    rw [hsame]
    simp

/-- An upload answered 200 was within the ceiling, met no other failure and
wrote the file under its original name. -/
theorem postUpload_ok (ioErr : Option UploadError) (file : FilePart) (t : Int) (d : Dir)
    (h : responses (postUpload ioErr (some file) t d).1 =
      [{ status := 200, body := Body.text "Upload complete" }]) :
    file.content.length ≤ MAX_FILE_SIZE ∧ ioErr = Option.none ∧
      (postUpload ioErr (some file) t d).2 =
        diskStorageWrite d file.originalname file.content t := by
  unfold postUpload multerSingle at h ⊢
  by_cases hsz : file.content.length > MAX_FILE_SIZE
  · simp [hsz, uploadCallback, responses, limitFileSizeError] at h
  · cases ioErr with
    | some e =>
      by_cases hc : e.code = some "LIMIT_FILE_SIZE"
      · simp [hsz, uploadCallback, responses, hc] at h
      · simp [hsz, uploadCallback, responses, hc] at h
    | none => exact ⟨not_lt.mp hsz, rfl, by simp [hsz, storage_filename]⟩

/-- An upload within the ceiling that meets no failure is answered 200. -/
theorem postUpload_within_limit (file : FilePart) (t : Int) (d : Dir)
    (hsz : file.content.length ≤ MAX_FILE_SIZE) :
    responses (postUpload Option.none (some file) t d).1 =
      [{ status := 200, body := Body.text "Upload complete" }] := by
  unfold postUpload multerSingle
  have : ¬ file.content.length > MAX_FILE_SIZE := not_lt.mpr hsz
  simp [this, uploadCallback, responses]

/-- An upload request keeps the folder well formed, whatever its outcome. -/
theorem postUpload_wellFormed (ioErr : Option UploadError) (part : Option FilePart) (t : Int)
    (d : Dir) (hwf : Dir.WellFormed d) : Dir.WellFormed (postUpload ioErr part t d).2 := by
  unfold postUpload multerSingle
  cases part with
  | none => exact hwf
  | some file =>
    by_cases hsz : file.content.length > MAX_FILE_SIZE
    · simp only [hsz, if_true]
      exact filter_wellFormed _ d hwf
    · cases ioErr with
      | some e => simpa [hsz] using hwf
      | none =>
        simp only [hsz, if_false]
        exact diskStorageWrite_wellFormed d _ _ t hwf

theorem runSweeps_keeps (sweeps : List (Int × Faults)) (bound : Int) (n : String)
    (f : StoredFile) (hage : bound - f.mtimeMs ≤ FILE_EXPIRY_TIME)
    (hs : ∀ s ∈ sweeps, s.1 ≤ bound) :
    ∀ (d : Dir), Dir.lookup d n = some f → Dir.lookup (runSweeps sweeps d) n = some f := by
  induction sweeps with
  | nil => intro d hl; exact hl
  | cons s rest ih =>
    intro d hl
    unfold runSweeps
    rw [List.foldl_cons]
    have hs1 : s.1 ≤ bound := hs s (List.mem_cons_self s rest)
    have := ih (fun x hx => hs x (List.mem_cons_of_mem s hx)) (cleanupOldFiles s.2 s.1 d).1
      (cleanupOldFiles_keeps s.2 s.1 d n f hl (by linarith))
    unfold runSweeps at this
    exact this

theorem getFiles_filter_subset (fl : Faults) (d : Dir) (n : String) (r : FileInfo)
    (hrec : r ∈ (getFiles fl (d.filter (fun f => f.name != n))).1.files) :
    r ∈ (getFiles fl d).1.files := by
  cases hr : fl.readdir with
  | true =>
    have : (getFiles fl (d.filter (fun f => f.name != n))).1.files = [] := by
      unfold getFiles fsReaddir
      simp [hr, Response.files]
    rw [this] at hrec
    cases hrec
  | false =>
    rw [getFiles_files fl _ hr] at hrec
    rw [getFiles_files fl d hr]
    simp only [Response.files, List.mem_filterMap] at hrec ⊢
    obtain ⟨m, hm, hp⟩ := hrec
    have hm2 : m ∈ Dir.names d := by
      unfold Dir.names at hm ⊢
      exact (List.Sublist.map _ (List.filter_sublist d)).subset hm
    have hmn : m ≠ n := by
      unfold Dir.names at hm
      obtain ⟨g, hg, hgm⟩ := List.mem_map.mp hm
      have hgn := (List.mem_filter.mp hg).2
      intro he
      have hgm2 : g.name = m := hgm
      simp [hgm2, he] at hgn
    refine ⟨m, hm2, ?_⟩
    have hlk : Dir.lookup (d.filter (fun f => f.name != n)) m = Dir.lookup d m := by
      apply lookup_filter
      intro g _ hg
      simp [hg, hmn]
    simpa [fileInfoPromise, fsStat, hlk] using hp

/-! ## Uploads and the folder -/

/-- C5 fails as stated: a file uploaded at time 0 and answered 200 is missing
from a listing taken 1 ms later, with no sweep in between, when the stat of
that listing fails; the listing still answers 200, with the empty array. -/
theorem listing_omits_fresh_upload_on_stat_failure :
    responses (postUpload Option.none (some ⟨"report.pdf", [1, 2, 3]⟩) 0 []).1 =
      [{ status := 200, body := Body.text "Upload complete" }] ∧
    (getFiles ⟨false, fun _ => true, fun _ => false⟩
        (runSweeps [] (postUpload Option.none (some ⟨"report.pdf", [1, 2, 3]⟩) 0 []).2)).1 =
      { status := 200, body := Body.jsonArray [] } := by
  decide

/-- C5 as amended: for a file uploaded successfully at time `t`, every listing
taken at a time `now` with `now - t` at most 7200000, whose directory read and
whose stat of that file succeed, holds the record of that file name (upload
time `t`, expiry `t + 7200000`), whatever sweeps ran in between and whatever
failed in them; a sweep does not delete a file of age at most 7200000. -/
theorem listing_includes_fresh_upload (ioErr : Option UploadError) (file : FilePart)
    (t now : Int) (d : Dir) (sweeps : List (Int × Faults)) (fl : Faults)
    (hok : responses (postUpload ioErr (some file) t d).1 =
      [{ status := 200, body := Body.text "Upload complete" }])
    (hnow : now - t ≤ 7200000) (hsw : ∀ s ∈ sweeps, s.1 ≤ now)
    (hr : fl.readdir = false) (hs : fl.stat file.originalname = false) :
    ({ name := file.originalname, uploadTime := t, expiryTime := t + 7200000 } : FileInfo) ∈
      (getFiles fl (runSweeps sweeps (postUpload ioErr (some file) t d).2)).1.files := by
  rw [(postUpload_ok ioErr file t d hok).2.2]
  have hl := lookup_diskStorageWrite d file.originalname file.content t
  have hkeep := runSweeps_keeps sweeps now file.originalname _
    (by simpa [FILE_EXPIRY_TIME] using hnow) hsw _ hl
  have := getFiles_mem_of_lookup fl _ file.originalname _ hr hs hkeep
  simpa [FILE_EXPIRY_TIME] using this

/-- C5 as amended, on an upload at time 1000 into a folder with one old file,
two sweeps (the second exactly 7200000 ms after the upload) and a listing at
that same time. -/
theorem listing_includes_fresh_upload_witness :
    ({ name := "report.pdf", uploadTime := 1000, expiryTime := 1000 + 7200000 } : FileInfo) ∈
      (getFiles Faults.none (runSweeps [(5000, Faults.none), (7201000, Faults.none)]
        (postUpload Option.none (some ⟨"report.pdf", [1, 2, 3]⟩) 1000
          [⟨"old.txt", 0, [9]⟩]).2)).1.files :=
  listing_includes_fresh_upload Option.none ⟨"report.pdf", [1, 2, 3]⟩ 1000 7201000
    [⟨"old.txt", 0, [9]⟩] [(5000, Faults.none), (7201000, Faults.none)] Faults.none
    (by decide) (by decide) (by decide) rfl rfl

/-- C6: two successful uploads under one file name leave exactly one file of
that name, with the second content and the second upload's time; every file of
another name is in the folder after exactly when it was before; and the folder
is the one the second upload alone would have left. -/
theorem upload_twice_overwrites (e1 e2 : Option UploadError) (name : String)
    (c1 c2 : Bytes) (t1 t2 : Int) (d : Dir) (hwf : Dir.WellFormed d)
    (h1 : responses (postUpload e1 (some ⟨name, c1⟩) t1 d).1 =
      [{ status := 200, body := Body.text "Upload complete" }])
    (h2 : responses (postUpload e2 (some ⟨name, c2⟩) t2
        (postUpload e1 (some ⟨name, c1⟩) t1 d).2).1 =
      [{ status := 200, body := Body.text "Upload complete" }]) :
    (postUpload e2 (some ⟨name, c2⟩) t2 (postUpload e1 (some ⟨name, c1⟩) t1 d).2).2.filter
        (fun f => f.name == name) = [{ name := name, mtimeMs := t2, content := c2 }] ∧
    (∀ f : StoredFile, f.name ≠ name →
      (f ∈ (postUpload e2 (some ⟨name, c2⟩) t2 (postUpload e1 (some ⟨name, c1⟩) t1 d).2).2 ↔
        f ∈ d)) ∧
    (postUpload e2 (some ⟨name, c2⟩) t2 (postUpload e1 (some ⟨name, c1⟩) t1 d).2).2 =
      (postUpload e2 (some ⟨name, c2⟩) t2 d).2 := by
  have hb := postUpload_ok e2 ⟨name, c2⟩ t2 _ h2
  have he2 : e2 = Option.none := hb.2.1
  have hd2 := hb.2.2
  have hd1 := (postUpload_ok e1 ⟨name, c1⟩ t1 d h1).2.2
  have honly := (postUpload_ok e2 ⟨name, c2⟩ t2 d
    (he2 ▸ postUpload_within_limit ⟨name, c2⟩ t2 d hb.1)).2.2
  simp only at hd1 hd2 honly
  rw [hd2, hd1, honly, diskStorageWrite_twice]
  refine ⟨?_, ?_, rfl⟩
  · have hx : ({ name := name, mtimeMs := t2, content := c2 } : StoredFile) ∈
        diskStorageWrite d name c2 t2 :=
      (lookup_some_name (lookup_diskStorageWrite d name c2 t2)).2
    exact filter_name_eq_singleton (diskStorageWrite_wellFormed d name c2 t2 hwf) hx
  · intro f hf
    exact mem_diskStorageWrite_of_ne d name c2 t2 f hf

/-- C6, on a folder that holds another file and an older file of the same
name. -/
theorem upload_twice_overwrites_witness :
    (postUpload Option.none (some ⟨"a.txt", [2, 2]⟩) 20
        (postUpload Option.none (some ⟨"a.txt", [1]⟩) 10
          [⟨"a.txt", 0, [0]⟩, ⟨"b.txt", 5, [7]⟩]).2).2.filter
        (fun f => f.name == "a.txt") = [{ name := "a.txt", mtimeMs := 20, content := [2, 2] }] ∧
    (∀ f : StoredFile, f.name ≠ "a.txt" →
      (f ∈ (postUpload Option.none (some ⟨"a.txt", [2, 2]⟩) 20
        (postUpload Option.none (some ⟨"a.txt", [1]⟩) 10
          [⟨"a.txt", 0, [0]⟩, ⟨"b.txt", 5, [7]⟩]).2).2 ↔
        f ∈ ([⟨"a.txt", 0, [0]⟩, ⟨"b.txt", 5, [7]⟩] : Dir))) ∧
    (postUpload Option.none (some ⟨"a.txt", [2, 2]⟩) 20
        (postUpload Option.none (some ⟨"a.txt", [1]⟩) 10
          [⟨"a.txt", 0, [0]⟩, ⟨"b.txt", 5, [7]⟩]).2).2 =
      (postUpload Option.none (some ⟨"a.txt", [2, 2]⟩) 20
        [⟨"a.txt", 0, [0]⟩, ⟨"b.txt", 5, [7]⟩]).2 :=
  upload_twice_overwrites Option.none Option.none "a.txt" [1] [2, 2] 10 20
    [⟨"a.txt", 0, [0]⟩, ⟨"b.txt", 5, [7]⟩] (by decide) (by decide) (by decide)

/-- C10: an upload whose file is larger than MAX_FILE_SIZE = 500 * 1024 * 1024 =
524288000 bytes is answered 413 "File too large", and nothing of it is
persisted: a file of that name in the folder after the request was there
before, and every record of a later listing is a record of the listing before
the request. -/
theorem upload_over_limit_rejected (ioErr : Option UploadError) (file : FilePart) (t : Int)
    (d : Dir) (hsz : file.content.length > 524288000) :
    MAX_FILE_SIZE = 500 * 1024 * 1024 ∧ MAX_FILE_SIZE = 524288000 ∧
    responses (postUpload ioErr (some file) t d).1 =
      [{ status := 413, body := Body.text "File too large" }] ∧
    (∀ f ∈ (postUpload ioErr (some file) t d).2, f.name = file.originalname → f ∈ d) ∧
    (∀ (fl : Faults), ∀ r ∈ (getFiles fl (postUpload ioErr (some file) t d).2).1.files,
      r ∈ (getFiles fl d).1.files) := by
  have hmax : MAX_FILE_SIZE = 524288000 := by decide
  have hgt : file.content.length > MAX_FILE_SIZE := by rw [hmax]; exact hsz
  have hdir : (postUpload ioErr (some file) t d).2 =
      d.filter (fun f => f.name != file.originalname) := by
    unfold postUpload multerSingle
    simp [hgt, storage_filename]
  refine ⟨rfl, hmax, ?_, ?_, ?_⟩
  · unfold postUpload multerSingle
    simp [hgt, uploadCallback, responses, limitFileSizeError]
  · intro f hf _
    rw [hdir] at hf
    exact (List.mem_filter.mp hf).1
  · intro fl r hrec
    rw [hdir] at hrec
    exact getFiles_filter_subset fl d file.originalname r hrec

/-- C10, on a file of 524288001 bytes. -/
theorem upload_over_limit_rejected_witness :
    responses (postUpload Option.none
        (some ⟨"big.bin", List.replicate 524288001 0⟩) 0 [⟨"a.txt", 0, [1]⟩]).1 =
      [{ status := 413, body := Body.text "File too large" }] :=
  (upload_over_limit_rejected Option.none ⟨"big.bin", List.replicate 524288001 0⟩ 0
    [⟨"a.txt", 0, [1]⟩]
    (show (List.replicate 524288001 (0 : Fin 256)).length > 524288000 by
      rw [List.length_replicate]; decide)).2.2.1

/-! ## Upload and download paths -/

/-- When the working directory is the directory of the server file, the download
handler resolves the path the upload wrote: a download of the name of a
successful upload streams exactly the uploaded content. -/
theorem getDownload_uploadWrite_same_root (p : Proc) (hroot : p.cwd = p.dirname)
    (file : FilePart) (t : Int) (disk disk2 : Disk)
    (hup : uploadWrite p file t disk = some disk2) :
    getDownload p disk2 file.originalname = some file.content := by
  unfold uploadWrite at hup
  unfold getDownload
  have hpath : fileTarget p.dirname [uploadFolder, file.originalname] =
      fileTarget p.cwd [storage_destination file, storage_filename file] := by
    rw [hroot]; rfl
  simp only [hpath]
  cases htarget : fileTarget p.cwd [storage_destination file, storage_filename file] with
  | none => simp [htarget] at hup
  | some target =>
    obtain ⟨folder, name⟩ := target
    simp only [htarget, Option.some.injEq] at hup
    subst hup
    simp only [Function.update_same, lookup_diskStorageWrite, Option.map_some']

/-- C7 fails on the code when the server runs with a working directory other
than the directory of the server file: with the working directory /home/u and
the server file in /srv/app, the upload of a.txt is written to
/home/u/uploads/a.txt, where the sweeper and the listing look, and the download
of a.txt, resolved to /srv/app/uploads/a.txt, finds no file. -/
theorem getDownload_misses_upload_other_cwd :
    (uploadWrite ⟨["home", "u"], ["srv", "app"]⟩ ⟨"a.txt", [104, 105]⟩ 0 (fun _ => [])).map
        (fun disk =>
          (Dir.lookup (disk (storageFolder ⟨["home", "u"], ["srv", "app"]⟩)) "a.txt",
           getDownload ⟨["home", "u"], ["srv", "app"]⟩ disk "a.txt")) =
      some (some ⟨"a.txt", 0, [104, 105]⟩, Option.none) := by
  decide

end WebFileShare
